import Mathlib

/-!
Verification development for the `teritory` turn-based territory-control game.

The definitions below are a shallow embedding of the TypeScript sources
`src/game/Territory.ts`, `src/game/GameState.ts` (class `Game`) and
`src/game/AIPlayer.ts`.

Modelling conventions:
* JavaScript numbers used for unit counts are modelled as `ℤ`; positions and
  the random draws from `Math.random()` (values in `[0,1)`) are modelled as `ℚ`,
  with every `Math.floor` rendered as `Int.floor` of a rational expression.
* Territory objects are identified by their index in the board list
  (`Game.territories`); JavaScript object identity (`===`) becomes index
  equality.
* Rendering concerns (meshes, colors, the `selected` highlight flag, text
  labels) are omitted; `onMessage` emissions are modelled as lists of constant
  strings (the interpolated payloads of the messages are abstracted away).
  The "You win"/"AI wins" announcements inside `updateGameState` and the
  AI-side attack/transfer announcements are dropped where no claim depends
  on them.
* The asynchronous pacing delays and the DeepSeek strategy fetch are outside
  the simulation core: the AI turn is parameterised by the hint string
  (`aiStrategy`, whatever `getAIStrategy` returned, including its fallback)
  and by a stream of random draw pairs, one pair per executed action.
-/

namespace Teritory

/-- Owner tag of a territory (`Territory.ts`, `type Owner`). -/
inductive Owner : Type where
  | player : Owner
  | ai : Owner
  | neutral : Owner
  deriving DecidableEq, Repr

/-- A territory (`Territory.ts`): name, 2D position `(x, z)` used for distance
checks, owner and unit count.  Mesh/selection/label state is presentation-only
and omitted. -/
structure Territory : Type where
  name : String
  pos : ℚ × ℚ
  owner : Owner
  units : ℤ
  deriving DecidableEq, Repr

/-- Placeholder used by the total indexing function `getT` for out-of-range
indices (never hit on the claims' inputs). -/
def defaultTerritory : Territory :=
  { name := "", pos := (0, 0), owner := Owner.neutral, units := 0 }

/-- Total lookup of the territory at index `i` of the board list. -/
def getT (ts : List Territory) (i : ℕ) : Territory :=
  ts.getD i defaultTerritory

/-- `Territory.setUnits` (`Territory.ts` lines 82-85): the stored unit count is
clamped with `Math.max(0, units)`. -/
def setUnitsT (t : Territory) (n : ℤ) : Territory :=
  { t with units := max 0 n }

/-- Apply `setUnits n` to the territory at index `i`. -/
def setUnitsAt (ts : List Territory) (i : ℕ) (n : ℤ) : List Territory :=
  ts.set i (setUnitsT (getT ts i) n)

/-- Apply `setOwner o` to the territory at index `i` (`Territory.setOwner`;
the color change is presentation-only). -/
def setOwnerAt (ts : List Territory) (i : ℕ) (o : Owner) : List Territory :=
  ts.set i { getT ts i with owner := o }

/-- Squared Euclidean distance between two positions.  `THREE.Vector3`
positions always have `y = 0` here, so only `(x, z)` matter. -/
def sqDist (p q : ℚ × ℚ) : ℚ :=
  (p.1 - q.1) ^ 2 + (p.2 - q.2) ^ 2

/-- `Game.isAdjacent` (`GameState.ts` lines 233-240): the source compares the
Euclidean distance `pos1.distanceTo(pos2)` with `7`; since both sides are
nonnegative this is equivalent to comparing the squared distance with `49`,
which keeps the definition inside `ℚ`. -/
def isAdjacentT (t1 t2 : Territory) : Bool :=
  decide (sqDist t1.pos t2.pos < 49)

/-- `AIPlayer.findAdjacentTerritories` (`AIPlayer.ts` lines 92-104), on
indices: all indices `j` of the board with `j` not the territory itself
(object identity `t !== territory`) and distance below the threshold. -/
def findAdjacentIdx (ts : List Territory) (i : ℕ) : List ℕ :=
  (List.range ts.length).filter
    (fun j => (!(j == i)) && isAdjacentT (getT ts i) (getT ts j))

/-- Number of territories of owner `o` (the per-owner counting loop of
`Game.updateGameState`). -/
def countOwner (o : Owner) (ts : List Territory) : ℕ :=
  ts.countP (fun t => decide (t.owner = o))

/-- Total units of owner `o` (the per-owner unit sum of
`Game.updateGameState`). -/
def sumUnits (o : Owner) (ts : List Territory) : ℤ :=
  ((ts.filter (fun t => decide (t.owner = o))).map Territory.units).sum

/-- `GameState.ts`: the derived aggregate game state. -/
structure GameStateR : Type where
  gameStarted : Bool
  gameOver : Bool
  winner : Option Owner
  currentTurn : Owner
  playerUnits : ℤ
  aiUnits : ℤ
  playerTerritories : ℕ
  aiTerritories : ℕ
  deriving DecidableEq, Repr

/-- `Game.updateGameState` (`GameState.ts` lines 292-328): recompute the four
aggregate fields from the board, then set the game-over flag and winner when a
side has no territories left (the AI count is checked first). -/
def updateGameState (ts : List Territory) (gs : GameStateR) : GameStateR :=
  let gs1 := { gs with
    playerUnits := sumUnits Owner.player ts
    aiUnits := sumUnits Owner.ai ts
    playerTerritories := countOwner Owner.player ts
    aiTerritories := countOwner Owner.ai ts }
  if countOwner Owner.ai ts = 0 then
    { gs1 with gameOver := true, winner := some Owner.player }
  else if countOwner Owner.player ts = 0 then
    { gs1 with gameOver := true, winner := some Owner.ai }
  else gs1

/-- The mutable state of class `Game`: the board, the current selection
(`selectedTerritory`, as an index) and the aggregate game state. -/
structure Game : Type where
  territories : List Territory
  selected : Option ℕ
  gameState : GameStateR
  deriving DecidableEq, Repr

/-- `Game.transferUnits` (`GameState.ts` lines 242-253), the human-initiated
transfer: move `Math.floor(from.getUnits() / 2)` units when that amount is
positive, otherwise report failure and change nothing. -/
def transferUnits (ts : List Territory) (i j : ℕ) : List Territory × List String :=
  let unitsToTransfer : ℤ := ⌊((getT ts i).units : ℚ) / 2⌋
  if 0 < unitsToTransfer then
    let ts1 := setUnitsAt ts i ((getT ts i).units - unitsToTransfer)
    let ts2 := setUnitsAt ts1 j ((getT ts1 j).units + unitsToTransfer)
    (ts2, ["Transferred units"])
  else
    (ts, ["Not enough units to transfer"])

/-- `AIPlayer.executeTransfer` (`AIPlayer.ts` lines 212-221), the AI-initiated
transfer: move `Math.floor((from.getUnits() - 1) / 2)` units when that amount
is positive, otherwise silently do nothing. -/
def executeTransferAI (ts : List Territory) (i j : ℕ) : List Territory × List String :=
  let unitsToTransfer : ℤ := ⌊(((getT ts i).units : ℚ) - 1) / 2⌋
  if 0 < unitsToTransfer then
    let ts1 := setUnitsAt ts i ((getT ts i).units - unitsToTransfer)
    let ts2 := setUnitsAt ts1 j ((getT ts1 j).units + unitsToTransfer)
    (ts2, ["AI transferred units"])
  else
    (ts, [])

/-- `Game.attackTerritory` (`GameState.ts` lines 255-290): the human-initiated
attack from territory `i` onto territory `j`, with random draws `r1`, `r2`
standing for the two `Math.random()` calls. -/
def attackTerritory (ts : List Territory) (i j : ℕ) (r1 r2 : ℚ) :
    List Territory × List String :=
  let attackerUnits := (getT ts i).units
  let defenderUnits := (getT ts j).units
  if attackerUnits ≤ 1 then
    (ts, ["Not enough units to attack"])
  else
    let attackStrength : ℤ := ⌊((attackerUnits : ℚ) - 1) * (0.8 + r1 * 0.4)⌋
    let defenseStrength : ℤ := ⌊(defenderUnits : ℚ) * (0.8 + r2 * 0.4)⌋
    if defenseStrength < attackStrength then
      let remainingUnits : ℤ :=
        ⌊((attackerUnits : ℚ) - 1) *
          ((attackStrength : ℚ) / ((attackStrength : ℚ) + (defenseStrength : ℚ)))⌋
      let ts1 := setUnitsAt ts i 1
      let ts2 := setOwnerAt ts1 j Owner.player
      let ts3 := setUnitsAt ts2 j remainingUnits
      (ts3, ["attack announced", "Attack successful"])
    else
      let attackerLosses : ℤ := ⌊(attackerUnits : ℚ) * 0.5⌋
      let ts1 := setUnitsAt ts i (max 1 (attackerUnits - attackerLosses))
      let defenderLosses : ℤ := ⌊(defenderUnits : ℚ) * 0.3⌋
      let ts2 := setUnitsAt ts1 j (max 1 (defenderUnits - defenderLosses))
      (ts2, ["attack announced", "Attack failed"])

/-- `AIPlayer.executeAttack` (`AIPlayer.ts` lines 175-210): identical combat
arithmetic with the roles reversed — the captured territory's owner becomes
`'ai'` — and a silent early return (no message) on an attacker with at most one
unit. -/
def executeAttackAI (ts : List Territory) (i j : ℕ) (r1 r2 : ℚ) :
    List Territory × List String :=
  let attackerUnits := (getT ts i).units
  let defenderUnits := (getT ts j).units
  if attackerUnits ≤ 1 then
    (ts, [])
  else
    let attackStrength : ℤ := ⌊((attackerUnits : ℚ) - 1) * (0.8 + r1 * 0.4)⌋
    let defenseStrength : ℤ := ⌊(defenderUnits : ℚ) * (0.8 + r2 * 0.4)⌋
    if defenseStrength < attackStrength then
      let remainingUnits : ℤ :=
        ⌊((attackerUnits : ℚ) - 1) *
          ((attackStrength : ℚ) / ((attackStrength : ℚ) + (defenseStrength : ℚ)))⌋
      let ts1 := setUnitsAt ts i 1
      let ts2 := setOwnerAt ts1 j Owner.ai
      let ts3 := setUnitsAt ts2 j remainingUnits
      (ts3, ["AI attack announced", "AI captured"])
    else
      let attackerLosses : ℤ := ⌊(attackerUnits : ℚ) * 0.5⌋
      let ts1 := setUnitsAt ts i (max 1 (attackerUnits - attackerLosses))
      let defenderLosses : ℤ := ⌊(defenderUnits : ℚ) * 0.3⌋
      let ts2 := setUnitsAt ts1 j (max 1 (defenderUnits - defenderLosses))
      (ts2, ["AI attack announced", "AI attack failed"])

/-- `Game.handleTerritoryClick` (`GameState.ts` lines 188-231).  The only gate
is `currentTurn !== 'player'`; with no selection a click on a territory not
owned by the player falls through both branches (no message, no change). -/
def handleTerritoryClick (g : Game) (i : ℕ) (r1 r2 : ℚ) : Game × List String :=
  if g.gameState.currentTurn ≠ Owner.player then
    (g, [])
  else
    match g.selected with
    | none =>
      if (getT g.territories i).owner = Owner.player then
        ({ g with selected := some i }, ["Selected territory"])
      else
        (g, [])
    | some s =>
      if s = i then
        ({ g with selected := none }, ["Deselected territory"])
      else if isAdjacentT (getT g.territories s) (getT g.territories i) then
        let act :=
          if (getT g.territories i).owner = Owner.player then
            transferUnits g.territories s i
          else
            attackTerritory g.territories s i r1 r2
        ({ g with
            territories := act.1
            selected := none
            gameState := updateGameState act.1 g.gameState }, act.2)
      else
        (g, ["Territories are not adjacent"])

/-- Case-insensitive containment test modelling
`haystack.toLowerCase().includes(needle.toLowerCase())` from `AIPlayer.ts`. -/
def containsCI (haystack needle : String) : Bool :=
  decide ((needle.data.map Char.toLower) <:+: (haystack.data.map Char.toLower))

/-- Indices adjacent to `j` that are owned by the player — the common
`findAdjacentTerritories(to, ...).filter(t => t.getOwner() === 'player').length`
subexpression of both evaluators in `AIPlayer.ts`. -/
def adjacentPlayerCount (ts : List Territory) (j : ℕ) : ℕ :=
  ((findAdjacentIdx ts j).filter
    (fun k => decide ((getT ts k).owner = Owner.player))).length

/-- `AIPlayer.evaluateAttack` (`AIPlayer.ts` lines 106-141). -/
def evaluateAttack (ts : List Territory) (i j : ℕ) (hint : String) : ℚ :=
  let attackerUnits := (getT ts i).units
  let defenderUnits := (getT ts j).units
  let c1 : ℚ := ((attackerUnits : ℚ) - 1) / ((max 1 defenderUnits : ℤ) : ℚ)
  let c2 := if (getT ts j).owner = Owner.player then c1 * 1.5 else c1
  let c3 := c2 + (adjacentPlayerCount ts j : ℚ) * 0.2
  let c4 := if containsCI hint (getT ts j).name then c3 * 1.5 else c3
  let c5 := if containsCI hint "attack" && containsCI hint "player" then c4 * 1.2 else c4
  if containsCI hint "defensive" || containsCI hint "defend" then c5 * 0.8 else c5

/-- `AIPlayer.evaluateTransfer` (`AIPlayer.ts` lines 143-173): note the early
`return 0` when the source does not exceed the destination by more than 2. -/
def evaluateTransfer (ts : List Territory) (i j : ℕ) (hint : String) : ℚ :=
  let fromUnits := (getT ts i).units
  let toUnits := (getT ts j).units
  let base : ℚ := ((fromUnits : ℚ) - (toUnits : ℚ)) / ((max 1 (fromUnits + toUnits) : ℤ) : ℚ)
  if fromUnits ≤ toUnits + 2 then 0
  else
    let c1 := base + (adjacentPlayerCount ts j : ℚ) * 0.3
    let c2 := if containsCI hint (getT ts j).name then c1 * 1.5 else c1
    if containsCI hint "reinforce" || containsCI hint "strengthen" then c2 * 1.3 else c2

/-- The tag of an `AIAction` (`AIPlayer.ts`, interface `AIAction`). -/
inductive ActKind : Type where
  | attack : ActKind
  | transfer : ActKind
  deriving DecidableEq, Repr

/-- An `AIAction`: kind, source index, target index and confidence score. -/
structure AIAction : Type where
  kind : ActKind
  source : ℕ
  target : ℕ
  confidence : ℚ
  deriving DecidableEq, Repr

/-- Candidate enumeration of `AIPlayer.executeTurn` (`AIPlayer.ts` lines
39-72): for each AI-owned territory with more than one unit, one action per
adjacent territory — a transfer if the neighbour is AI-owned, an attack
otherwise — scored against the pre-turn board. -/
def possibleActions (ts : List Territory) (hint : String) : List AIAction :=
  ((List.range ts.length).filter
      (fun k => decide ((getT ts k).owner = Owner.ai))).flatMap
    (fun i =>
      if (getT ts i).units ≤ 1 then []
      else
        (findAdjacentIdx ts i).map (fun j =>
          if (getT ts j).owner = Owner.ai then
            { kind := ActKind.transfer, source := i, target := j,
              confidence := evaluateTransfer ts i j hint }
          else
            { kind := ActKind.attack, source := i, target := j,
              confidence := evaluateAttack ts i j hint }))

/-- The ranking order of `possibleActions.sort((a, b) => b.confidence -
a.confidence)`: descending confidence.  JavaScript `Array.prototype.sort` is
stable, which `List.insertionSort` with this relation reproduces exactly
(ties keep their enumeration order). -/
def confGE (a b : AIAction) : Prop :=
  b.confidence ≤ a.confidence

instance : DecidableRel confGE := fun a b =>
  inferInstanceAs (Decidable (b.confidence ≤ a.confidence))

/-- The candidate list sorted by descending confidence, stably. -/
def sortActions (l : List AIAction) : List AIAction :=
  l.insertionSort confGE

/-- `actionsToExecute = possibleActions.slice(0, 3)` after sorting
(`AIPlayer.ts` lines 74-78). -/
def executedActions (ts : List Territory) (hint : String) : List AIAction :=
  (sortActions (possibleActions ts hint)).take 3

/-- One step of the execution loop of `AIPlayer.executeTurn`: apply the `k`-th
executed action to the current board, drawing this attack's two random values
from the stream `rs`. -/
def aiStep (rs : ℕ → ℚ × ℚ) (ts : List Territory) (ka : ℕ × AIAction) : List Territory :=
  match ka.2.kind with
  | ActKind.attack => (executeAttackAI ts ka.2.source ka.2.target (rs ka.1).1 (rs ka.1).2).1
  | ActKind.transfer => (executeTransferAI ts ka.2.source ka.2.target).1

/-- `AIPlayer.executeTurn` (`AIPlayer.ts` lines 17-90): early return when the
AI owns nothing, otherwise enumerate, score once against the pre-turn board,
sort stably by descending confidence and execute the first three actions in
order.  `hint` is the strategy text obtained from `getAIStrategy` (or its
fallback), `rs` the stream of random draws. -/
def executeTurn (ts : List Territory) (hint : String) (rs : ℕ → ℚ × ℚ) :
    List Territory :=
  if ((List.range ts.length).filter
      (fun k => decide ((getT ts k).owner = Owner.ai))).isEmpty then
    ts
  else
    ((executedActions ts hint).enum).foldl (aiStep rs) ts

/-- The reinforcement loops of `Game.endPlayerTurn`: `setUnits(getUnits() + 1)`
on every territory of owner `o`. -/
def reinforce (o : Owner) (ts : List Territory) : List Territory :=
  ts.map (fun t => if t.owner = o then setUnitsT t (t.units + 1) else t)

/-- `Game.endPlayerTurn` (`GameState.ts` lines 349-386): no-op unless started
and not over; then player reinforcement, a `GameState` recompute, turn to the
AI, the AI turn, AI reinforcement, turn back to the player and a final
recompute with win check. -/
def endPlayerTurn (g : Game) (hint : String) (rs : ℕ → ℚ × ℚ) : Game :=
  if !g.gameState.gameStarted || g.gameState.gameOver then
    g
  else
    let ts1 := reinforce Owner.player g.territories
    let gs1 := updateGameState ts1 g.gameState
    let gs2 := { gs1 with currentTurn := Owner.ai }
    let ts2 := executeTurn ts1 hint rs
    let ts3 := reinforce Owner.ai ts2
    let gs3 := { gs2 with currentTurn := Owner.player }
    let gs4 := updateGameState ts3 gs3
    { g with territories := ts3, gameState := gs4 }

/-- `Game.createGameBoard` (`GameState.ts` lines 106-157): a 5×5 grid with
spacing 5 and offset 10, the four corner cells skipped; the low corner block
starts owned by the player with 3 units, the high corner block by the AI with
3 units, everything else neutral with 0 units. -/
def initialTerritories : List Territory :=
  (List.range 5).flatMap (fun x =>
    (List.range 5).filterMap (fun z =>
      if (x = 0 ∧ z = 0) ∨ (x = 4 ∧ z = 4) ∨ (x = 0 ∧ z = 4) ∨ (x = 4 ∧ z = 0) then
        none
      else
        let t : Territory :=
          { name := "Territory (" ++ toString x ++ "," ++ toString z ++ ")"
            pos := ((x : ℚ) * 5 - 10, (z : ℚ) * 5 - 10)
            owner := Owner.neutral
            units := 0 }
        if x < 2 ∧ z < 2 then
          some { t with owner := Owner.player, units := 3 }
        else if 2 < x ∧ 2 < z then
          some { t with owner := Owner.ai, units := 3 }
        else
          some t))

/-! ### Reference definitions taken from the specification text

These follow the wording of the spec / claims (not the source); the claims
compare the source embeddings above against them. -/

/-- Reference attack resolution, following the claim's words: `none` means the
attack fails with `InsufficientUnits` and mutates nothing; otherwise the
result is the attacker's new unit count, the defender's new unit count and the
defender's new owner. -/
def resolveAttackSpec (attackerOwner defenderOwner : Owner) (a d : ℤ)
    (r1 r2 : ℚ) : Option (ℤ × ℤ × Owner) :=
  if a ≤ 1 then
    none
  else
    let attackStrength : ℤ := ⌊((a : ℚ) - 1) * (0.8 + r1 * 0.4)⌋
    let defenseStrength : ℤ := ⌊(d : ℚ) * (0.8 + r2 * 0.4)⌋
    if defenseStrength < attackStrength then
      some (1,
        ⌊((a : ℚ) - 1) * (attackStrength : ℚ) /
          ((attackStrength : ℚ) + (defenseStrength : ℚ))⌋,
        attackerOwner)
    else
      some (max 1 (a - ⌊(a : ℚ) * 0.5⌋),
        max 1 (d - ⌊(d : ℚ) * 0.3⌋),
        defenderOwner)

/-- Apply a reference attack outcome to the board: `none` leaves the board
unchanged; otherwise attacker `i` gets its new unit count and defender `j`
gets its new unit count and owner. -/
def applyOutcome (ts : List Territory) (i j : ℕ) :
    Option (ℤ × ℤ × Owner) → List Territory
  | none => ts
  | some (a', d', o') =>
      (ts.set i { getT ts i with units := a' }).set j
        { getT ts j with units := d', owner := o' }

/-- Reference reinforcement, following the claim's words: exactly `+1` unit to
every territory of owner `o` (no clamping). -/
def reinforceSpec (o : Owner) (ts : List Territory) : List Territory :=
  ts.map (fun t => if t.owner = o then { t with units := t.units + 1 } else t)

/-- Reference end-of-turn transition, following claim C4's words: a no-op if
the game is not started or already over; otherwise `+1` to every player
territory, then the AI turn, then `+1` to every AI territory, then the turn
returns to the player and the win condition is checked once, on the final
board (AI count `0` wins for the player, else player count `0` wins for the
AI, as in the recompute). -/
def endPlayerTurnSpec (g : Game) (hint : String) (rs : ℕ → ℚ × ℚ) : Game :=
  if !g.gameState.gameStarted || g.gameState.gameOver then
    g
  else
    let ts1 := reinforceSpec Owner.player g.territories
    let ts2 := executeTurn ts1 hint rs
    let ts3 := reinforceSpec Owner.ai ts2
    let gs := updateGameState ts3 { g.gameState with currentTurn := Owner.player }
    { g with territories := ts3, gameState := gs }

/-! ### Helper lemmas -/

@[simp] theorem getT_nil (i : ℕ) : getT [] i = defaultTerritory := rfl

@[simp] theorem getT_cons_zero (a : Territory) (l : List Territory) :
    getT (a :: l) 0 = a := rfl

@[simp] theorem getT_cons_succ (a : Territory) (l : List Territory) (n : ℕ) :
    getT (a :: l) (n + 1) = getT l n := rfl

theorem getT_set_self {ts : List Territory} {i : ℕ} (t' : Territory)
    (h : i < ts.length) : getT (ts.set i t') i = t' := by
  simp [getT, List.getD_eq_getElem?_getD, List.getElem?_set_self h]

theorem getT_set_ne {i j : ℕ} (ts : List Territory) (t' : Territory)
    (h : i ≠ j) : getT (ts.set i t') j = getT ts j := by
  simp [getT, List.getD_eq_getElem?_getD, List.getElem?_set_ne h]

theorem getT_mem {ts : List Territory} {i : ℕ} (h : i < ts.length) :
    getT ts i ∈ ts := by
  have : getT ts i = ts[i] := by
    simp [getT, List.getD_eq_getElem?_getD, List.getElem?_eq_getElem h]
  rw [this]
  exact List.getElem_mem h

theorem countP_set_eq (p : Territory → Bool) (ts : List Territory) (i : ℕ)
    (t' : Territory) (h : p t' = p (getT ts i)) :
    (ts.set i t').countP p = ts.countP p := by
  induction ts generalizing i with
  | nil => simp
  | cons a l ih =>
    cases i with
    | zero => simp_all [List.countP_cons]
    | succ n =>
      simp only [List.set_cons_succ, List.countP_cons, getT_cons_succ] at *
      rw [ih n h]

theorem countP_set_le (p : Territory → Bool) (ts : List Territory) (i : ℕ)
    (t' : Territory) (h : p t' = false) :
    (ts.set i t').countP p ≤ ts.countP p := by
  induction ts generalizing i with
  | nil => simp
  | cons a l ih =>
    cases i with
    | zero =>
      simp [List.countP_cons, h]
    | succ n =>
      simp only [List.set_cons_succ, List.countP_cons]
      exact Nat.add_le_add_right (ih n) _

theorem countOwner_setUnitsAt (o : Owner) (ts : List Territory) (i : ℕ) (n : ℤ) :
    countOwner o (setUnitsAt ts i n) = countOwner o ts :=
  countP_set_eq _ ts i _ (by simp [setUnitsT])

theorem countOwner_setOwnerAt_le {o o' : Owner} (ts : List Territory) (j : ℕ)
    (h : o' ≠ o) : countOwner o (setOwnerAt ts j o') ≤ countOwner o ts :=
  countP_set_le _ ts j _ (by simp [h])

theorem countOwner_eq_zero_iff (o : Owner) (ts : List Territory) :
    countOwner o ts = 0 ↔ ∀ t ∈ ts, t.owner ≠ o := by
  simp [countOwner, List.countP_eq_zero]

/-- All unit counts on the board are nonnegative. -/
def NonnegB (ts : List Territory) : Prop := ∀ t ∈ ts, 0 ≤ t.units

instance (ts : List Territory) : Decidable (NonnegB ts) :=
  inferInstanceAs (Decidable (∀ t ∈ ts, 0 ≤ t.units))

theorem nonnegB_set {ts : List Territory} {t' : Territory} {i : ℕ}
    (h : NonnegB ts) (h' : 0 ≤ t'.units) : NonnegB (ts.set i t') := fun t ht =>
  (List.mem_or_eq_of_mem_set ht).elim (h t) (fun e => e ▸ h')

theorem nonneg_getT {ts : List Territory} (h : NonnegB ts) (i : ℕ) :
    0 ≤ (getT ts i).units := by
  rcases Nat.lt_or_ge i ts.length with hi | hi
  · exact h _ (getT_mem hi)
  · simp [getT, List.getD_eq_getElem?_getD, List.getElem?_eq_none hi,
      defaultTerritory]

theorem nonnegB_setUnitsAt {ts : List Territory} (h : NonnegB ts) (i : ℕ) (n : ℤ) :
    NonnegB (setUnitsAt ts i n) :=
  nonnegB_set h (by simp [setUnitsT])

theorem nonnegB_setOwnerAt {ts : List Territory} (h : NonnegB ts) (i : ℕ) (o : Owner) :
    NonnegB (setOwnerAt ts i o) :=
  nonnegB_set h (nonneg_getT h i)

theorem countOwner_transferUnits (o : Owner) (ts : List Territory) (i j : ℕ) :
    countOwner o (transferUnits ts i j).1 = countOwner o ts := by
  unfold transferUnits
  dsimp only
  split
  · simp [countOwner_setUnitsAt]
  · rfl

theorem countOwner_executeTransferAI (o : Owner) (ts : List Territory) (i j : ℕ) :
    countOwner o (executeTransferAI ts i j).1 = countOwner o ts := by
  unfold executeTransferAI
  dsimp only
  split
  · simp [countOwner_setUnitsAt]
  · rfl

theorem countOwner_player_executeAttackAI_le (ts : List Territory) (i j : ℕ)
    (r1 r2 : ℚ) :
    countOwner Owner.player (executeAttackAI ts i j r1 r2).1 ≤
      countOwner Owner.player ts := by
  unfold executeAttackAI
  dsimp only
  split
  · exact Nat.le_refl _
  · split
    · calc countOwner Owner.player (setUnitsAt
            (setOwnerAt (setUnitsAt ts i 1) j Owner.ai) j _) =
          countOwner Owner.player (setOwnerAt (setUnitsAt ts i 1) j Owner.ai) :=
            countOwner_setUnitsAt _ _ _ _
        _ ≤ countOwner Owner.player (setUnitsAt ts i 1) :=
            countOwner_setOwnerAt_le _ _ (by simp)
        _ = countOwner Owner.player ts := countOwner_setUnitsAt _ _ _ _
    · simp [countOwner_setUnitsAt]

theorem countOwner_player_aiStep_le (rs : ℕ → ℚ × ℚ) (ts : List Territory)
    (ka : ℕ × AIAction) :
    countOwner Owner.player (aiStep rs ts ka) ≤ countOwner Owner.player ts := by
  unfold aiStep
  split
  · exact countOwner_player_executeAttackAI_le _ _ _ _ _
  · exact Nat.le_of_eq (countOwner_executeTransferAI _ _ _ _)

theorem countOwner_player_foldl_le (rs : ℕ → ℚ × ℚ) (l : List (ℕ × AIAction))
    (ts : List Territory) :
    countOwner Owner.player (l.foldl (aiStep rs) ts) ≤
      countOwner Owner.player ts := by
  induction l generalizing ts with
  | nil => exact Nat.le_refl _
  | cons a l ih =>
    exact Nat.le_trans (ih (aiStep rs ts a)) (countOwner_player_aiStep_le rs ts a)

theorem countOwner_player_executeTurn_le (ts : List Territory) (hint : String)
    (rs : ℕ → ℚ × ℚ) :
    countOwner Owner.player (executeTurn ts hint rs) ≤
      countOwner Owner.player ts := by
  unfold executeTurn
  split
  · exact Nat.le_refl _
  · exact countOwner_player_foldl_le _ _ _

theorem executeTurn_of_no_ai {ts : List Territory} (hint : String)
    (rs : ℕ → ℚ × ℚ) (h : countOwner Owner.ai ts = 0) :
    executeTurn ts hint rs = ts := by
  have hall := (countOwner_eq_zero_iff Owner.ai ts).mp h
  unfold executeTurn
  rw [if_pos]
  rw [List.isEmpty_iff, List.filter_eq_nil_iff]
  intro k hk
  simp only [List.mem_range] at hk
  simpa using hall _ (getT_mem hk)

theorem countOwner_reinforce (o o' : Owner) (ts : List Territory) :
    countOwner o' (reinforce o ts) = countOwner o' ts := by
  unfold countOwner reinforce
  rw [List.countP_map]
  refine List.countP_congr (fun t _ => ?_)
  by_cases h : t.owner = o <;> simp [h, setUnitsT, Function.comp]

theorem countOwner_reinforceSpec (o o' : Owner) (ts : List Territory) :
    countOwner o' (reinforceSpec o ts) = countOwner o' ts := by
  unfold countOwner reinforceSpec
  rw [List.countP_map]
  refine List.countP_congr (fun t _ => ?_)
  by_cases h : t.owner = o <;> simp [h, Function.comp]

theorem nonnegB_reinforceSpec {ts : List Territory} (o : Owner)
    (h : NonnegB ts) : NonnegB (reinforceSpec o ts) := by
  intro t ht
  simp only [reinforceSpec, List.mem_map] at ht
  obtain ⟨u, hu, rfl⟩ := ht
  by_cases ho : u.owner = o <;> simp [ho]
  · have := h u hu
    omega
  · exact h u hu

theorem reinforce_eq_spec {ts : List Territory} (o : Owner) (h : NonnegB ts) :
    reinforce o ts = reinforceSpec o ts := by
  refine List.map_congr_left (fun t ht => ?_)
  by_cases ho : t.owner = o <;> simp [ho, setUnitsT]
  have := h t ht
  omega

theorem nonnegB_executeAttackAI {ts : List Territory} (h : NonnegB ts)
    (i j : ℕ) (r1 r2 : ℚ) : NonnegB (executeAttackAI ts i j r1 r2).1 := by
  unfold executeAttackAI
  dsimp only
  split
  · exact h
  · split
    · exact nonnegB_setUnitsAt (nonnegB_setOwnerAt (nonnegB_setUnitsAt h _ _) _ _) _ _
    · exact nonnegB_setUnitsAt (nonnegB_setUnitsAt h _ _) _ _

theorem nonnegB_executeTransferAI {ts : List Territory} (h : NonnegB ts)
    (i j : ℕ) : NonnegB (executeTransferAI ts i j).1 := by
  unfold executeTransferAI
  dsimp only
  split
  · exact nonnegB_setUnitsAt (nonnegB_setUnitsAt h _ _) _ _
  · exact h

theorem nonnegB_aiStep {ts : List Territory} (h : NonnegB ts)
    (rs : ℕ → ℚ × ℚ) (ka : ℕ × AIAction) : NonnegB (aiStep rs ts ka) := by
  unfold aiStep
  split
  · exact nonnegB_executeAttackAI h _ _ _ _
  · exact nonnegB_executeTransferAI h _ _

theorem nonnegB_foldl (rs : ℕ → ℚ × ℚ) (l : List (ℕ × AIAction))
    {ts : List Territory} (h : NonnegB ts) :
    NonnegB (l.foldl (aiStep rs) ts) := by
  induction l generalizing ts with
  | nil => exact h
  | cons a l ih => exact ih (nonnegB_aiStep h rs a)

theorem nonnegB_executeTurn {ts : List Territory} (h : NonnegB ts)
    (hint : String) (rs : ℕ → ℚ × ℚ) : NonnegB (executeTurn ts hint rs) := by
  unfold executeTurn
  split
  · exact h
  · exact nonnegB_foldl _ _ h

theorem updateGameState_gameStarted (ts : List Territory) (gs : GameStateR) :
    (updateGameState ts gs).gameStarted = gs.gameStarted := by
  unfold updateGameState
  dsimp only
  split
  · rfl
  · split <;> rfl

theorem updateGameState_no_win (ts : List Territory) (gs : GameStateR)
    (hA : countOwner Owner.ai ts ≠ 0) (hP : countOwner Owner.player ts ≠ 0) :
    (updateGameState ts gs).gameOver = gs.gameOver ∧
      (updateGameState ts gs).winner = gs.winner := by
  unfold updateGameState
  dsimp only
  rw [if_neg hA, if_neg hP]
  exact ⟨rfl, rfl⟩

theorem updateGameState_congr (ts : List Territory) (gs gs' : GameStateR)
    (h1 : gs.gameStarted = gs'.gameStarted)
    (h2 : gs.currentTurn = gs'.currentTurn)
    (h3 : countOwner Owner.ai ts ≠ 0 → countOwner Owner.player ts ≠ 0 →
      gs.gameOver = gs'.gameOver ∧ gs.winner = gs'.winner) :
    updateGameState ts gs = updateGameState ts gs' := by
  cases gs
  cases gs'
  unfold updateGameState
  dsimp only at *
  by_cases hA : countOwner Owner.ai ts = 0
  · simp [hA, h1, h2]
  · by_cases hP : countOwner Owner.player ts = 0
    · simp [hA, hP, h1, h2]
    · obtain ⟨hgo, hw⟩ := h3 hA hP
      simp [hA, hP, h1, h2, hgo, hw]

theorem getT_set2_self_i {ts : List Territory} {i j : ℕ} (A B : Territory)
    (hij : i ≠ j) (hi : i < ts.length) :
    getT ((ts.set i A).set j B) i = A := by
  rw [getT_set_ne _ _ (Ne.symm hij), getT_set_self _ hi]

theorem getT_set2_self_j {ts : List Territory} {i j : ℕ} (A B : Territory)
    (hj : j < ts.length) :
    getT ((ts.set i A).set j B) j = B :=
  getT_set_self _ (by simpa using hj)

theorem max_zero_max_one (x : ℤ) : max 0 (max 1 x) = max 1 x :=
  max_eq_right (le_trans zero_le_one (le_max_left 1 x))

theorem attack_sets_win (ts : List Territory) (i j : ℕ) (hij : i ≠ j)
    (hj : j < ts.length) (o : Owner) (rem : ℤ) (hrem : 0 ≤ rem) :
    setUnitsAt (setOwnerAt (setUnitsAt ts i 1) j o) j rem =
      applyOutcome ts i j (some (1, rem, o)) := by
  unfold setUnitsAt setOwnerAt applyOutcome setUnitsT
  rw [List.set_set, getT_set_self _ (by simpa using hj), getT_set_ne _ _ hij,
    max_eq_right hrem]
  norm_num

theorem attack_sets_lose (ts : List Territory) (i j : ℕ) (hij : i ≠ j)
    (x y : ℤ) :
    setUnitsAt (setUnitsAt ts i (max 1 x)) j (max 1 y) =
      applyOutcome ts i j (some (max 1 x, max 1 y, (getT ts j).owner)) := by
  unfold setUnitsAt applyOutcome setUnitsT
  rw [getT_set_ne _ _ hij, max_zero_max_one, max_zero_max_one]

theorem getT_applyOutcome_i {ts : List Territory} {i j : ℕ} (a' d' : ℤ)
    (o' : Owner) (hij : i ≠ j) (hi : i < ts.length) :
    getT (applyOutcome ts i j (some (a', d', o'))) i =
      { getT ts i with units := a' } := by
  unfold applyOutcome
  exact getT_set2_self_i _ _ hij hi

theorem getT_applyOutcome_j {ts : List Territory} {i j : ℕ} (a' d' : ℤ)
    (o' : Owner) (hj : j < ts.length) :
    getT (applyOutcome ts i j (some (a', d', o'))) j =
      { getT ts j with units := d', owner := o' } := by
  unfold applyOutcome
  exact getT_set2_self_j _ _ hj

theorem defenseStrength_nonneg {d : ℤ} {r2 : ℚ} (hd : 0 ≤ d) (hr2 : 0 ≤ r2) :
    (0 : ℤ) ≤ ⌊(d : ℚ) * (0.8 + r2 * 0.4)⌋ := by
  apply Int.floor_nonneg.mpr
  have h1 : (0 : ℚ) ≤ (d : ℚ) := by exact_mod_cast hd
  nlinarith

theorem remaining_units_ge_one {a d : ℤ} {r1 r2 : ℚ} (ha : 2 ≤ a) (hd : 0 ≤ d)
    (hr1 : 0 ≤ r1) (hr1' : r1 < 1) (hr2 : 0 ≤ r2)
    (hw : ⌊(d : ℚ) * (0.8 + r2 * 0.4)⌋ < ⌊((a : ℚ) - 1) * (0.8 + r1 * 0.4)⌋) :
    1 ≤ ⌊((a : ℚ) - 1) *
        ((⌊((a : ℚ) - 1) * (0.8 + r1 * 0.4)⌋ : ℚ) /
          ((⌊((a : ℚ) - 1) * (0.8 + r1 * 0.4)⌋ : ℚ) +
            (⌊(d : ℚ) * (0.8 + r2 * 0.4)⌋ : ℚ)))⌋ := by
  set S : ℤ := ⌊((a : ℚ) - 1) * (0.8 + r1 * 0.4)⌋ with hS
  set T : ℤ := ⌊(d : ℚ) * (0.8 + r2 * 0.4)⌋ with hT
  have hT0 : 0 ≤ T := defenseStrength_nonneg hd hr2
  have hS1 : (1 : ℤ) ≤ S := by omega
  have hSq : (1 : ℚ) ≤ (S : ℚ) := by exact_mod_cast hS1
  have hTq : (0 : ℚ) ≤ (T : ℚ) := by exact_mod_cast hT0
  have hTSq : (T : ℚ) ≤ (S : ℚ) - 1 := by
    have h : T ≤ S - 1 := by omega
    have h2 : ((T : ℚ)) ≤ ((S - 1 : ℤ) : ℚ) := by exact_mod_cast h
    push_cast at h2
    linarith
  have hkey : (T : ℚ) ≤ ((a : ℚ) - 2) * S := by
    rcases (by omega : a = 2 ∨ 3 ≤ a) with h2 | h3
    · have hSle : S ≤ 1 := by
        have hle : ((a : ℚ) - 1) * (0.8 + r1 * 0.4) ≤ 1.2 := by
          have h2q : (a : ℚ) = 2 := by exact_mod_cast h2
          rw [h2q]
          nlinarith
        calc S ≤ ⌊(1.2 : ℚ)⌋ := Int.floor_le_floor hle
          _ = 1 := by norm_num
      have hTz : T = 0 := by omega
      have ha2 : (a : ℚ) = 2 := by exact_mod_cast h2
      rw [hTz, ha2]
      norm_num
    · have ha3 : (1 : ℚ) ≤ (a : ℚ) - 2 := by
        have : (3 : ℚ) ≤ (a : ℚ) := by exact_mod_cast h3
        linarith
      nlinarith
  have hden : (0 : ℚ) < (S : ℚ) + (T : ℚ) := by linarith
  rw [Int.le_floor, ← mul_div_assoc, le_div_iff₀ hden]
  have expand : ((a : ℚ) - 1) * S = ((a : ℚ) - 2) * S + S := by ring
  push_cast
  push_cast at expand hkey
  linarith

/-! ### Claim theorems -/

/-- C2: for every attacker, defender and pair of random draws in `[0,1)`, the
attack resolution of the source — `Game.attackTerritory` (conquering for the
player) and `AIPlayer.executeAttack` (conquering for the AI) — coincides with
the reference definition `resolveAttackSpec` built from the claim's words:
failure with no mutation when the attacker has at most 1 unit, strengths
`floor((attacker-1)*(0.8+r*0.4))` and `floor(defender*(0.8+r*0.4))`, strict
comparison favouring the defender, winner outcome
`(1, floor((attacker-1)*s/(s+d)), attacker's side)` and loser outcome
`(max 1 (a - floor(a*0.5)), max 1 (d - floor(d*0.3)), owner unchanged)`. -/
theorem c2_attack_matches_reference (ts : List Territory) (i j : ℕ)
    (r1 r2 : ℚ) (hij : i ≠ j) (hj : j < ts.length)
    (hd : 0 ≤ (getT ts j).units)
    (hr1 : 0 ≤ r1) (hr1' : r1 < 1) (hr2 : 0 ≤ r2) (hr2' : r2 < 1) :
    (attackTerritory ts i j r1 r2).1 =
      applyOutcome ts i j (resolveAttackSpec Owner.player (getT ts j).owner
        (getT ts i).units (getT ts j).units r1 r2) ∧
    (executeAttackAI ts i j r1 r2).1 =
      applyOutcome ts i j (resolveAttackSpec Owner.ai (getT ts j).owner
        (getT ts i).units (getT ts j).units r1 r2) := by
  have main : ∀ o : Owner,
      applyOutcome ts i j (resolveAttackSpec o (getT ts j).owner
          (getT ts i).units (getT ts j).units r1 r2) =
        if (getT ts i).units ≤ 1 then ts
        else if ⌊((getT ts j).units : ℚ) * (0.8 + r2 * 0.4)⌋ <
            ⌊(((getT ts i).units : ℚ) - 1) * (0.8 + r1 * 0.4)⌋ then
          setUnitsAt (setOwnerAt (setUnitsAt ts i 1) j o) j
            ⌊(((getT ts i).units : ℚ) - 1) *
              ((⌊(((getT ts i).units : ℚ) - 1) * (0.8 + r1 * 0.4)⌋ : ℚ) /
                ((⌊(((getT ts i).units : ℚ) - 1) * (0.8 + r1 * 0.4)⌋ : ℚ) +
                  (⌊((getT ts j).units : ℚ) * (0.8 + r2 * 0.4)⌋ : ℚ)))⌋
        else
          setUnitsAt (setUnitsAt ts i
              (max 1 ((getT ts i).units - ⌊((getT ts i).units : ℚ) * 0.5⌋))) j
            (max 1 ((getT ts j).units - ⌊((getT ts j).units : ℚ) * 0.3⌋)) := by
    intro o
    unfold resolveAttackSpec
    dsimp only
    by_cases ha : (getT ts i).units ≤ 1
    · rw [if_pos ha, if_pos ha]
      rfl
    · rw [if_neg ha, if_neg ha]
      by_cases hw : ⌊((getT ts j).units : ℚ) * (0.8 + r2 * 0.4)⌋ <
          ⌊(((getT ts i).units : ℚ) - 1) * (0.8 + r1 * 0.4)⌋
      · rw [if_pos hw, if_pos hw]
        have ht0 := defenseStrength_nonneg hd hr2
        have hrem : (0 : ℤ) ≤
            ⌊(((getT ts i).units : ℚ) - 1) *
              ((⌊(((getT ts i).units : ℚ) - 1) * (0.8 + r1 * 0.4)⌋ : ℚ) /
                ((⌊(((getT ts i).units : ℚ) - 1) * (0.8 + r1 * 0.4)⌋ : ℚ) +
                  (⌊((getT ts j).units : ℚ) * (0.8 + r2 * 0.4)⌋ : ℚ)))⌋ := by
          apply Int.floor_nonneg.mpr
          have ha2 : (1 : ℚ) ≤ ((getT ts i).units : ℚ) - 1 := by
            have : (2 : ℤ) ≤ (getT ts i).units := by omega
            have h2 : (2 : ℚ) ≤ ((getT ts i).units : ℚ) := by exact_mod_cast this
            linarith
          have hsq : (1 : ℚ) ≤
              (⌊(((getT ts i).units : ℚ) - 1) * (0.8 + r1 * 0.4)⌋ : ℚ) := by
            exact_mod_cast (by omega :
              (1 : ℤ) ≤ ⌊(((getT ts i).units : ℚ) - 1) * (0.8 + r1 * 0.4)⌋)
          have htq : (0 : ℚ) ≤
              (⌊((getT ts j).units : ℚ) * (0.8 + r2 * 0.4)⌋ : ℚ) := by
            exact_mod_cast ht0
          have hden : (0 : ℚ) <
              (⌊(((getT ts i).units : ℚ) - 1) * (0.8 + r1 * 0.4)⌋ : ℚ) +
                (⌊((getT ts j).units : ℚ) * (0.8 + r2 * 0.4)⌋ : ℚ) := by
            linarith
          have := div_nonneg (by linarith :
              (0 : ℚ) ≤ (⌊(((getT ts i).units : ℚ) - 1) * (0.8 + r1 * 0.4)⌋ : ℚ))
            (le_of_lt hden)
          nlinarith
        rw [attack_sets_win ts i j hij hj o _ hrem, mul_div_assoc]
      · rw [if_neg hw, if_neg hw]
        rw [attack_sets_lose ts i j hij]
  constructor
  · rw [main Owner.player]
    unfold attackTerritory
    dsimp only
    simp only [apply_ite Prod.fst]
  · rw [main Owner.ai]
    unfold executeAttackAI
    dsimp only
    simp only [apply_ite Prod.fst]

/-- C10: for every attack with more than one attacker unit and random draws
in `[0,1)`, both involved territories end with at least one unit; in
particular the captured territory's remaining units
`floor((attacker-1)*s/(s+d))` are at least 1 in the attacker-wins branch, so a
capture never produces a 0-unit territory.  Proved for both copies of the
combat routine. -/
theorem c10_attack_leaves_units_positive (ts : List Territory) (i j : ℕ)
    (r1 r2 : ℚ) (hij : i ≠ j) (hi : i < ts.length) (hj : j < ts.length)
    (ha : 2 ≤ (getT ts i).units) (hd : 0 ≤ (getT ts j).units)
    (hr1 : 0 ≤ r1) (hr1' : r1 < 1) (hr2 : 0 ≤ r2) (hr2' : r2 < 1) :
    (1 ≤ (getT (attackTerritory ts i j r1 r2).1 i).units ∧
      1 ≤ (getT (attackTerritory ts i j r1 r2).1 j).units) ∧
    (1 ≤ (getT (executeAttackAI ts i j r1 r2).1 i).units ∧
      1 ≤ (getT (executeAttackAI ts i j r1 r2).1 j).units) := by
  have ha1 : ¬ (getT ts i).units ≤ 1 := by omega
  have ht0 := defenseStrength_nonneg hd hr2
  constructor
  · unfold attackTerritory
    dsimp only
    rw [if_neg ha1]
    by_cases hw : ⌊((getT ts j).units : ℚ) * (0.8 + r2 * 0.4)⌋ <
        ⌊(((getT ts i).units : ℚ) - 1) * (0.8 + r1 * 0.4)⌋
    · rw [if_pos hw]
      dsimp only
      have hrem1 := remaining_units_ge_one ha hd hr1 hr1' hr2 hw
      rw [attack_sets_win ts i j hij hj Owner.player _ (by omega),
        getT_applyOutcome_i _ _ _ hij hi, getT_applyOutcome_j _ _ _ hj]
      exact ⟨le_refl 1, hrem1⟩
    · rw [if_neg hw]
      dsimp only
      rw [attack_sets_lose ts i j hij,
        getT_applyOutcome_i _ _ _ hij hi, getT_applyOutcome_j _ _ _ hj]
      exact ⟨le_max_left 1 _, le_max_left 1 _⟩
  · unfold executeAttackAI
    dsimp only
    rw [if_neg ha1]
    by_cases hw : ⌊((getT ts j).units : ℚ) * (0.8 + r2 * 0.4)⌋ <
        ⌊(((getT ts i).units : ℚ) - 1) * (0.8 + r1 * 0.4)⌋
    · rw [if_pos hw]
      dsimp only
      have hrem1 := remaining_units_ge_one ha hd hr1 hr1' hr2 hw
      rw [attack_sets_win ts i j hij hj Owner.ai _ (by omega),
        getT_applyOutcome_i _ _ _ hij hi, getT_applyOutcome_j _ _ _ hj]
      exact ⟨le_refl 1, hrem1⟩
    · rw [if_neg hw]
      dsimp only
      rw [attack_sets_lose ts i j hij,
        getT_applyOutcome_i _ _ _ hij hi, getT_applyOutcome_j _ _ _ hj]
      exact ⟨le_max_left 1 _, le_max_left 1 _⟩

/-- C4: `endPlayerTurn()` is a no-op if the game is not started or already
over; otherwise it adds exactly +1 unit to every player-owned territory, runs
the AI turn, adds exactly +1 unit to every AI-owned territory, returns the
turn to the player and checks the win condition on the final board (AI
territory count 0 ⟹ game over with winner player, else player territory
count 0 ⟹ game over with winner AI): the source `endPlayerTurn` coincides
with the reference transition `endPlayerTurnSpec` built from the claim's
words (in particular the extra mid-turn `updateGameState` call of the source
never changes the outcome). -/
theorem c4_endPlayerTurn_matches_spec (g : Game) (hint : String)
    (rs : ℕ → ℚ × ℚ) (hnn : NonnegB g.territories) :
    endPlayerTurn g hint rs = endPlayerTurnSpec g hint rs := by
  unfold endPlayerTurn endPlayerTurnSpec
  split
  · rfl
  · dsimp only
    rw [reinforce_eq_spec Owner.player hnn,
      reinforce_eq_spec Owner.ai
        (nonnegB_executeTurn (nonnegB_reinforceSpec Owner.player hnn) hint rs)]
    congr 1
    apply updateGameState_congr
    · exact updateGameState_gameStarted _ _
    · rfl
    · intro hA3 hP3
      rw [countOwner_reinforceSpec] at hA3 hP3
      have hA1 : countOwner Owner.ai (reinforceSpec Owner.player g.territories) ≠ 0 := by
        intro h0
        rw [executeTurn_of_no_ai hint rs h0] at hA3
        exact hA3 h0
      have hP1 : countOwner Owner.player (reinforceSpec Owner.player g.territories) ≠ 0 := by
        intro h0
        have hle := countOwner_player_executeTurn_le
          (reinforceSpec Owner.player g.territories) hint rs
        omega
      exact updateGameState_no_win _ g.gameState hA1 hP1

end Teritory

namespace Teritory

/-- C7: an AI execution step (`aiStep`, the body of the execution loop of
`AIPlayer.executeTurn`) that is an attack whose source territory holds at most
one unit leaves the board completely unchanged, at any board state — in
particular at every intermediate state of an AI turn, even after earlier
executed actions have drained the source.  This is the re-check
`if (attackerUnits <= 1) return;` at the top of `AIPlayer.executeAttack`, so
no attack mutation is ever applied with such a source. -/
theorem c7_no_attack_from_weak_source (rs : ℕ → ℚ × ℚ) (ts : List Territory)
    (ka : ℕ × AIAction) (hk : ka.2.kind = ActKind.attack)
    (h : (getT ts ka.2.source).units ≤ 1) : aiStep rs ts ka = ts := by
  unfold aiStep
  rw [hk]
  unfold executeAttackAI
  dsimp only
  rw [if_pos h]

/-- A concrete board state right after the player captured the last AI
territory: the game is over (`gameOver = true`, winner player) but
`currentTurn` is still `'player'` and a territory is still selected. -/
def postWinGame : Game :=
  { territories :=
      [{ name := "A", pos := (0, 0), owner := Owner.player, units := 4 },
       { name := "B", pos := (5, 0), owner := Owner.player, units := 2 }]
    selected := some 0
    gameState :=
      { gameStarted := true, gameOver := true, winner := some Owner.player,
        currentTurn := Owner.player, playerUnits := 6, aiUnits := 0,
        playerTerritories := 2, aiTerritories := 0 } }

/-- C1 (code bug): `handleTerritoryClick` gates only on
`currentTurn !== 'player'` and never checks `gameOver`, so with the game over
and `currentTurn = player` (the state left behind when the player's click
captured the last AI territory) a further click still performs a transfer and
mutates territories: on `postWinGame` a click on territory 1 moves 2 units,
changing the unit vector from `[4, 2]` to `[2, 4]` although
`gameOver = true`. -/
theorem c1_gameOver_click_mutates :
    postWinGame.gameState.gameOver = true ∧
    postWinGame.territories.map Territory.units = [4, 2] ∧
    ((handleTerritoryClick postWinGame 1 0 0).1.territories.map
      Territory.units) = [2, 4] := by
  refine ⟨rfl, rfl, ?_⟩
  norm_num [handleTerritoryClick, postWinGame, transferUnits, getT,
    setUnitsAt, setUnitsT, isAdjacentT, sqDist, updateGameState]

end Teritory

namespace Teritory

/-- A concrete in-progress game with nothing selected: player's turn, game not
over, territory 1 owned by the AI. -/
def noSelectionGame : Game :=
  { territories :=
      [{ name := "A", pos := (0, 0), owner := Owner.player, units := 3 },
       { name := "B", pos := (5, 0), owner := Owner.ai, units := 3 }]
    selected := none
    gameState :=
      { gameStarted := true, gameOver := false, winner := none,
        currentTurn := Owner.player, playerUnits := 3, aiUnits := 3,
        playerTerritories := 1, aiTerritories := 1 } }

/-- C5 counterexample: with no selection, a click on a territory not owned by
the player emits NO message — the source falls through both branches of
`handleTerritoryClick` — contradicting the claim that this case "emits a
message only".  (The state is indeed unchanged.) -/
theorem c5_counterexample_unowned_click_silent :
    noSelectionGame.selected = none ∧
    (getT noSelectionGame.territories 1).owner ≠ Owner.player ∧
    noSelectionGame.gameState.currentTurn = Owner.player ∧
    noSelectionGame.gameState.gameOver = false ∧
    handleTerritoryClick noSelectionGame 1 0 0 = (noSelectionGame, []) := by
  refine ⟨rfl, by decide, rfl, rfl, rfl⟩

/-- C5 (amended): given it is the player's turn and the game is not over, the
click transition follows the six cases — select an owned territory when
nothing is selected; a click on a non-owned territory with no selection is a
SILENT no-op (no message, unlike the claim's "message only"); clicking the
selected territory deselects; a non-adjacent click retains the selection and
only emits a message; an adjacent player-owned click submits the transfer and
clears the selection; an adjacent non-owned click submits the attack and
clears the selection. -/
theorem c5_selection_transition (g : Game) (i : ℕ) (r1 r2 : ℚ)
    (hturn : g.gameState.currentTurn = Owner.player)
    (hover : g.gameState.gameOver = false) :
    (g.selected = none → (getT g.territories i).owner = Owner.player →
      handleTerritoryClick g i r1 r2 =
        ({ g with selected := some i }, ["Selected territory"])) ∧
    (g.selected = none → (getT g.territories i).owner ≠ Owner.player →
      handleTerritoryClick g i r1 r2 = (g, [])) ∧
    (∀ s, g.selected = some s → s = i →
      handleTerritoryClick g i r1 r2 =
        ({ g with selected := none }, ["Deselected territory"])) ∧
    (∀ s, g.selected = some s → s ≠ i →
      isAdjacentT (getT g.territories s) (getT g.territories i) = false →
      handleTerritoryClick g i r1 r2 = (g, ["Territories are not adjacent"])) ∧
    (∀ s, g.selected = some s → s ≠ i →
      isAdjacentT (getT g.territories s) (getT g.territories i) = true →
      (getT g.territories i).owner = Owner.player →
      handleTerritoryClick g i r1 r2 =
        ({ g with
            territories := (transferUnits g.territories s i).1
            selected := none
            gameState := updateGameState (transferUnits g.territories s i).1
              g.gameState },
          (transferUnits g.territories s i).2)) ∧
    (∀ s, g.selected = some s → s ≠ i →
      isAdjacentT (getT g.territories s) (getT g.territories i) = true →
      (getT g.territories i).owner ≠ Owner.player →
      handleTerritoryClick g i r1 r2 =
        ({ g with
            territories := (attackTerritory g.territories s i r1 r2).1
            selected := none
            gameState := updateGameState
              (attackTerritory g.territories s i r1 r2).1 g.gameState },
          (attackTerritory g.territories s i r1 r2).2)) := by
  have hturn' : ¬ g.gameState.currentTurn ≠ Owner.player := by simp [hturn]
  refine ⟨?_, ?_, ?_, ?_, ?_, ?_⟩
  · intro hsel howner
    unfold handleTerritoryClick
    rw [if_neg hturn', hsel]
    simp [howner]
  · intro hsel howner
    unfold handleTerritoryClick
    rw [if_neg hturn', hsel]
    simp only [if_neg howner]
  · intro s hsel hsi
    unfold handleTerritoryClick
    rw [if_neg hturn', hsel]
    simp only [if_pos hsi]
  · intro s hsel hsi hadj
    unfold handleTerritoryClick
    rw [if_neg hturn', hsel]
    simp only [if_neg hsi, hadj, Bool.false_eq_true, if_neg]
    simp
  · intro s hsel hsi hadj howner
    unfold handleTerritoryClick
    rw [if_neg hturn', hsel]
    simp only [if_neg hsi, hadj, if_pos rfl, howner]
    simp
  · intro s hsel hsi hadj howner
    unfold handleTerritoryClick
    rw [if_neg hturn', hsel]
    simp only [if_neg hsi, hadj, if_pos rfl, if_neg howner]
    simp [howner]

end Teritory

namespace Teritory

/-- C6 counterexample: the adjacency test of `Game.isAdjacent` is NOT
irreflexive — a territory is at distance 0 from itself and `0 < 7`, so
`isAdjacent(t, t)` is true, contradicting the claim that the relation is
irreflexive while holding iff the distance is below 7. -/
theorem c6_counterexample_self_adjacent :
    isAdjacentT { name := "A", pos := (0, 0), owner := Owner.player, units := 3 }
      { name := "A", pos := (0, 0), owner := Owner.player, units := 3 } = true := by
  norm_num [isAdjacentT, sqDist]

/-- C6 (amended): the adjacency test returns true iff the Euclidean distance
between the positions is strictly below 7, and it is symmetric; it is NOT
irreflexive as a standalone predicate (see the counterexample), but the AI's
adjacency enumeration `findAdjacentTerritories` explicitly excludes the
territory itself, so no territory ever appears among its own neighbours
there (and the click handler tests identity before testing adjacency). -/
theorem c6_adjacency_characterisation :
    (∀ a b : Territory, isAdjacentT a b = true ↔
      Real.sqrt (((a.pos.1 : ℝ) - (b.pos.1 : ℝ)) ^ 2 +
        ((a.pos.2 : ℝ) - (b.pos.2 : ℝ)) ^ 2) < 7) ∧
    (∀ a b : Territory, isAdjacentT a b = isAdjacentT b a) ∧
    (∀ (ts : List Territory) (i : ℕ), i ∉ findAdjacentIdx ts i) := by
  refine ⟨?_, ?_, ?_⟩
  · intro a b
    rw [isAdjacentT, decide_eq_true_iff,
      Real.sqrt_lt' (by norm_num : (0 : ℝ) < 7)]
    have hc : (((sqDist a.pos b.pos : ℚ)) : ℝ) =
        ((a.pos.1 : ℝ) - (b.pos.1 : ℝ)) ^ 2 +
          ((a.pos.2 : ℝ) - (b.pos.2 : ℝ)) ^ 2 := by
      unfold sqDist
      push_cast
      ring
    rw [← hc]
    constructor
    · intro h
      have h' : (((sqDist a.pos b.pos : ℚ)) : ℝ) < ((49 : ℚ) : ℝ) := by
        exact_mod_cast h
      norm_num at h' ⊢
      linarith
    · intro h
      have h' : (((sqDist a.pos b.pos : ℚ)) : ℝ) < ((49 : ℚ) : ℝ) := by
        norm_num
        linarith
      exact_mod_cast h'
  · intro a b
    have h : sqDist a.pos b.pos = sqDist b.pos a.pos := by
      unfold sqDist
      ring
    simp [isAdjacentT, h]
  · intro ts i
    simp [findAdjacentIdx]

end Teritory

namespace Teritory

theorem transfer_sets (ts : List Territory) (i j : ℕ) (hij : i ≠ j) (q : ℤ) :
    setUnitsAt (setUnitsAt ts i ((getT ts i).units - q)) j
        ((getT (setUnitsAt ts i ((getT ts i).units - q)) j).units + q) =
      (ts.set i (setUnitsT (getT ts i) ((getT ts i).units - q))).set j
        (setUnitsT (getT ts j) ((getT ts j).units + q)) := by
  unfold setUnitsAt
  rw [getT_set_ne _ _ hij]

theorem floor_half_le {u : ℤ} (hu : 0 ≤ u) : ⌊(u : ℚ) / 2⌋ ≤ u := by
  have huq : (0 : ℚ) ≤ (u : ℚ) := by exact_mod_cast hu
  calc ⌊(u : ℚ) / 2⌋ ≤ ⌊(u : ℚ)⌋ := Int.floor_le_floor (by linarith)
    _ = u := Int.floor_intCast u

theorem floor_half_pred_le {u : ℤ} (hq : 0 < ⌊((u : ℚ) - 1) / 2⌋) :
    ⌊((u : ℚ) - 1) / 2⌋ ≤ u - 1 := by
  have h1 : (1 : ℚ) ≤ ((u : ℚ) - 1) / 2 := by
    have := Int.le_floor.mp hq
    push_cast at this
    linarith
  have hu3 : (3 : ℚ) ≤ (u : ℚ) := by linarith
  calc ⌊((u : ℚ) - 1) / 2⌋ ≤ ⌊((u - 1 : ℤ) : ℚ)⌋ := by
        apply Int.floor_le_floor
        push_cast
        linarith
    _ = u - 1 := Int.floor_intCast _

/-- C3: transfers are asymmetric by initiator and conservative.  The
human-initiated `transferUnits` moves `floor(source.units/2)` and fails with a
message and no mutation when that amount is 0; the AI-initiated
`executeTransfer` moves `floor((source.units-1)/2)` and silently no-ops when
that amount is 0; in both moving variants the amount is subtracted from the
source and added to the destination with no ownership change, so the summed
unit count of source and destination is conserved. -/
theorem c3_transfer_asymmetric_conservative (ts : List Territory) (i j : ℕ)
    (hij : i ≠ j) (hi : i < ts.length) (hj : j < ts.length)
    (hui : 0 ≤ (getT ts i).units) (huj : 0 ≤ (getT ts j).units) :
    (⌊((getT ts i).units : ℚ) / 2⌋ = 0 →
      transferUnits ts i j = (ts, ["Not enough units to transfer"])) ∧
    (0 < ⌊((getT ts i).units : ℚ) / 2⌋ →
      (getT (transferUnits ts i j).1 i).units
          = (getT ts i).units - ⌊((getT ts i).units : ℚ) / 2⌋ ∧
        (getT (transferUnits ts i j).1 j).units
          = (getT ts j).units + ⌊((getT ts i).units : ℚ) / 2⌋ ∧
        (getT (transferUnits ts i j).1 i).owner = (getT ts i).owner ∧
        (getT (transferUnits ts i j).1 j).owner = (getT ts j).owner ∧
        (getT (transferUnits ts i j).1 i).units +
            (getT (transferUnits ts i j).1 j).units
          = (getT ts i).units + (getT ts j).units) ∧
    (⌊(((getT ts i).units : ℚ) - 1) / 2⌋ = 0 →
      executeTransferAI ts i j = (ts, [])) ∧
    (0 < ⌊(((getT ts i).units : ℚ) - 1) / 2⌋ →
      (getT (executeTransferAI ts i j).1 i).units
          = (getT ts i).units - ⌊(((getT ts i).units : ℚ) - 1) / 2⌋ ∧
        (getT (executeTransferAI ts i j).1 j).units
          = (getT ts j).units + ⌊(((getT ts i).units : ℚ) - 1) / 2⌋ ∧
        (getT (executeTransferAI ts i j).1 i).owner = (getT ts i).owner ∧
        (getT (executeTransferAI ts i j).1 j).owner = (getT ts j).owner ∧
        (getT (executeTransferAI ts i j).1 i).units +
            (getT (executeTransferAI ts i j).1 j).units
          = (getT ts i).units + (getT ts j).units) := by
  refine ⟨?_, ?_, ?_, ?_⟩
  · intro h0
    unfold transferUnits
    dsimp only
    rw [if_neg (by omega)]
  · intro hq
    have hle : ⌊((getT ts i).units : ℚ) / 2⌋ ≤ (getT ts i).units :=
      floor_half_le hui
    have hres : (transferUnits ts i j).1 =
        (ts.set i (setUnitsT (getT ts i)
            ((getT ts i).units - ⌊((getT ts i).units : ℚ) / 2⌋))).set j
          (setUnitsT (getT ts j)
            ((getT ts j).units + ⌊((getT ts i).units : ℚ) / 2⌋)) := by
      unfold transferUnits
      dsimp only
      rw [if_pos hq]
      exact congrArg Prod.fst (congrArg (fun x => (x,
        ["Transferred units"])) (transfer_sets ts i j hij _))
    rw [hres, getT_set2_self_i _ _ hij hi, getT_set2_self_j _ _ hj]
    unfold setUnitsT
    refine ⟨?_, ?_, rfl, rfl, ?_⟩
    · simp only []
      rw [max_eq_right (by omega)]
    · simp only []
      rw [max_eq_right (by omega)]
    · simp only []
      rw [max_eq_right (by omega), max_eq_right (by omega)]
      ring
  · intro h0
    unfold executeTransferAI
    dsimp only
    rw [if_neg (by omega)]
  · intro hq
    have hle : ⌊(((getT ts i).units : ℚ) - 1) / 2⌋ ≤ (getT ts i).units - 1 :=
      floor_half_pred_le hq
    have hres : (executeTransferAI ts i j).1 =
        (ts.set i (setUnitsT (getT ts i)
            ((getT ts i).units - ⌊(((getT ts i).units : ℚ) - 1) / 2⌋))).set j
          (setUnitsT (getT ts j)
            ((getT ts j).units + ⌊(((getT ts i).units : ℚ) - 1) / 2⌋)) := by
      unfold executeTransferAI
      dsimp only
      rw [if_pos hq]
      exact congrArg Prod.fst (congrArg (fun x => (x,
        ["AI transferred units"])) (transfer_sets ts i j hij _))
    rw [hres, getT_set2_self_i _ _ hij hi, getT_set2_self_j _ _ hj]
    unfold setUnitsT
    refine ⟨?_, ?_, rfl, rfl, ?_⟩
    · simp only []
      rw [max_eq_right (by omega)]
    · simp only []
      rw [max_eq_right (by omega)]
    · simp only []
      rw [max_eq_right (by omega), max_eq_right (by omega)]
      ring

end Teritory

namespace Teritory

instance : IsTotal AIAction confGE :=
  ⟨fun a b => le_total b.confidence a.confidence⟩

instance : IsTrans AIAction confGE :=
  ⟨fun _ _ _ h1 h2 => le_trans h2 h1⟩

theorem filter_conf_orderedInsert (q : ℚ) (a : AIAction) (l : List AIAction) :
    (List.orderedInsert confGE a l).filter (fun x => decide (x.confidence = q)) =
      if a.confidence = q then
        a :: l.filter (fun x => decide (x.confidence = q))
      else l.filter (fun x => decide (x.confidence = q)) := by
  induction l with
  | nil =>
    by_cases h : a.confidence = q <;> simp [List.orderedInsert, h]
  | cons b l ih =>
    by_cases hab : confGE a b
    · rw [List.orderedInsert, if_pos hab]
      by_cases h : a.confidence = q <;> simp [List.filter_cons, h]
    · rw [List.orderedInsert, if_neg hab]
      have hlt : a.confidence < b.confidence := by
        simpa [confGE] using hab
      by_cases h : a.confidence = q
      · have hbq : ¬ b.confidence = q := by
          rw [← h]
          intro hc
          exact absurd hc.symm (ne_of_lt hlt)
        simp [List.filter_cons, hbq, ih, h]
      · simp [List.filter_cons, ih, h]

theorem filter_conf_sortActions (q : ℚ) (l : List AIAction) :
    (sortActions l).filter (fun x => decide (x.confidence = q)) =
      l.filter (fun x => decide (x.confidence = q)) := by
  induction l with
  | nil => rfl
  | cons a l ih =>
    unfold sortActions at *
    rw [List.insertionSort, filter_conf_orderedInsert]
    by_cases h : a.confidence = q <;> simp [List.filter_cons, h, ih]

/-- C8: on each AI turn the candidate list is sorted stably by descending
confidence and exactly the first `min(3, #candidates)` of them are executed in
that order, zero-confidence candidates included; the confidences are computed
once from the pre-turn board `ts` (`possibleActions ts hint` and hence
`executedActions ts hint` depend only on `ts`) and the execution loop folds
those fixed actions over the board without rescoring.  Stability is stated as:
filtering the sorted list to any confidence class gives exactly the
enumeration-ordered candidates of that class. -/
theorem c8_top3_stable_sorted (ts : List Territory) (hint : String)
    (rs : ℕ → ℚ × ℚ) :
    (sortActions (possibleActions ts hint)).Sorted confGE ∧
    (sortActions (possibleActions ts hint)).Perm (possibleActions ts hint) ∧
    (∀ q : ℚ,
      (sortActions (possibleActions ts hint)).filter
          (fun x => decide (x.confidence = q)) =
        (possibleActions ts hint).filter
          (fun x => decide (x.confidence = q))) ∧
    executedActions ts hint = (sortActions (possibleActions ts hint)).take 3 ∧
    (executedActions ts hint).length = min 3 (possibleActions ts hint).length ∧
    (¬ ((List.range ts.length).filter
        (fun k => decide ((getT ts k).owner = Owner.ai))).isEmpty = true →
      executeTurn ts hint rs =
        ((executedActions ts hint).enum).foldl (aiStep rs) ts) := by
  refine ⟨List.sorted_insertionSort confGE _,
    List.perm_insertionSort confGE _,
    fun q => filter_conf_sortActions q _, rfl, ?_, ?_⟩
  · unfold executedActions sortActions
    rw [List.length_take, List.length_insertionSort]
  · intro h
    unfold executeTurn
    rw [if_neg h]

end Teritory

namespace Teritory

theorem nonnegB_reinforce {ts : List Territory} (o : Owner) (h : NonnegB ts) :
    NonnegB (reinforce o ts) := by
  intro t ht
  simp only [reinforce, List.mem_map] at ht
  obtain ⟨u, hu, rfl⟩ := ht
  by_cases ho : u.owner = o
  · simp only [ho, if_pos rfl, setUnitsT]
    exact le_max_left 0 _
  · simpa [ho] using h u hu

theorem nonnegB_transferUnits {ts : List Territory} (h : NonnegB ts)
    (i j : ℕ) : NonnegB (transferUnits ts i j).1 := by
  unfold transferUnits
  dsimp only
  split
  · exact nonnegB_setUnitsAt (nonnegB_setUnitsAt h _ _) _ _
  · exact h

theorem nonnegB_attackTerritory {ts : List Territory} (h : NonnegB ts)
    (i j : ℕ) (r1 r2 : ℚ) : NonnegB (attackTerritory ts i j r1 r2).1 := by
  unfold attackTerritory
  dsimp only
  split
  · exact h
  · split
    · exact nonnegB_setUnitsAt (nonnegB_setOwnerAt (nonnegB_setUnitsAt h _ _) _ _) _ _
    · exact nonnegB_setUnitsAt (nonnegB_setUnitsAt h _ _) _ _

theorem nonnegB_handleTerritoryClick {g : Game} (h : NonnegB g.territories)
    (i : ℕ) (r1 r2 : ℚ) :
    NonnegB (handleTerritoryClick g i r1 r2).1.territories := by
  unfold handleTerritoryClick
  split
  · exact h
  · cases hsel : g.selected with
    | none =>
      dsimp only
      split
      · exact h
      · exact h
    | some s =>
      dsimp only
      split
      · exact h
      · split
        · dsimp only
          split
          · exact nonnegB_transferUnits h _ _
          · exact nonnegB_attackTerritory h _ _ _ _
        · exact h

theorem nonnegB_endPlayerTurn {g : Game} (h : NonnegB g.territories)
    (hint : String) (rs : ℕ → ℚ × ℚ) :
    NonnegB (endPlayerTurn g hint rs).territories := by
  unfold endPlayerTurn
  split
  · exact h
  · dsimp only
    exact nonnegB_reinforce _ (nonnegB_executeTurn (nonnegB_reinforce _ h) hint rs)

/-- C9: unit counts never go negative.  The initial board is nonnegative,
`Territory.setUnits` clamps every write with `max 0`, and every operation of
the game — reinforcement, both transfer variants, both attack variants, the
whole AI turn, `endPlayerTurn` and the click handler — preserves
nonnegativity of every territory's unit count. -/
theorem c9_units_nonneg :
    NonnegB initialTerritories ∧
    (∀ (t : Territory) (n : ℤ), 0 ≤ (setUnitsT t n).units) ∧
    (∀ (o : Owner) (ts : List Territory), NonnegB ts →
      NonnegB (reinforce o ts)) ∧
    (∀ (ts : List Territory) (i j : ℕ), NonnegB ts →
      NonnegB (transferUnits ts i j).1) ∧
    (∀ (ts : List Territory) (i j : ℕ), NonnegB ts →
      NonnegB (executeTransferAI ts i j).1) ∧
    (∀ (ts : List Territory) (i j : ℕ) (r1 r2 : ℚ), NonnegB ts →
      NonnegB (attackTerritory ts i j r1 r2).1) ∧
    (∀ (ts : List Territory) (i j : ℕ) (r1 r2 : ℚ), NonnegB ts →
      NonnegB (executeAttackAI ts i j r1 r2).1) ∧
    (∀ (ts : List Territory) (hint : String) (rs : ℕ → ℚ × ℚ), NonnegB ts →
      NonnegB (executeTurn ts hint rs)) ∧
    (∀ (g : Game) (hint : String) (rs : ℕ → ℚ × ℚ), NonnegB g.territories →
      NonnegB (endPlayerTurn g hint rs).territories) ∧
    (∀ (g : Game) (i : ℕ) (r1 r2 : ℚ), NonnegB g.territories →
      NonnegB (handleTerritoryClick g i r1 r2).1.territories) := by
  refine ⟨by decide, fun t n => le_max_left 0 n,
    fun o ts h => nonnegB_reinforce o h,
    fun ts i j h => nonnegB_transferUnits h i j,
    fun ts i j h => nonnegB_executeTransferAI h i j,
    fun ts i j r1 r2 h => nonnegB_attackTerritory h i j r1 r2,
    fun ts i j r1 r2 h => nonnegB_executeAttackAI h i j r1 r2,
    fun ts hint rs h => nonnegB_executeTurn h hint rs,
    fun g hint rs h => nonnegB_endPlayerTurn h hint rs,
    fun g i r1 r2 h => nonnegB_handleTerritoryClick h i r1 r2⟩

end Teritory

namespace Teritory

/-- A small concrete board used by the witnesses: a player territory with 5
units and an AI territory with 3 units, 5 apart (adjacent). -/
def wBoard : List Territory :=
  [{ name := "A", pos := (0, 0), owner := Owner.player, units := 5 },
   { name := "B", pos := (5, 0), owner := Owner.ai, units := 3 }]

/-- A concrete random stream: every draw is 0. -/
def wRs : ℕ → ℚ × ℚ := fun _ => (0, 0)

/-- A concrete running game over `wBoard`. -/
def wGame : Game :=
  { territories := wBoard
    selected := none
    gameState :=
      { gameStarted := true, gameOver := false, winner := none,
        currentTurn := Owner.player, playerUnits := 5, aiUnits := 3,
        playerTerritories := 1, aiTerritories := 1 } }

/-- A concrete board whose AI territory holds a single unit. -/
def wWeakBoard : List Territory :=
  [{ name := "A", pos := (0, 0), owner := Owner.ai, units := 1 },
   { name := "B", pos := (5, 0), owner := Owner.player, units := 3 }]

/-- Witness for C2 at a concrete input. -/
theorem c2_attack_matches_reference_witness :
    (0 : ℤ) ≤ (getT wBoard 1).units ∧ ((0 : ℚ) ≤ 0 ∧ (0 : ℚ) < 1) ∧
    (attackTerritory wBoard 0 1 0 0).1 =
      applyOutcome wBoard 0 1 (resolveAttackSpec Owner.player
        (getT wBoard 1).owner (getT wBoard 0).units (getT wBoard 1).units 0 0) :=
  ⟨by decide, ⟨le_refl 0, by norm_num⟩,
    (c2_attack_matches_reference wBoard 0 1 0 0 (by decide) (by decide)
      (by decide) (le_refl 0) (by norm_num) (le_refl 0) (by norm_num)).1⟩

/-- Witness for C3 at a concrete input. -/
theorem c3_transfer_asymmetric_conservative_witness :
    (0 : ℤ) ≤ (getT wBoard 0).units ∧
    0 < ⌊((getT wBoard 0).units : ℚ) / 2⌋ ∧
    (getT (transferUnits wBoard 0 1).1 0).units +
        (getT (transferUnits wBoard 0 1).1 1).units
      = (getT wBoard 0).units + (getT wBoard 1).units := by
  have hq : 0 < ⌊((getT wBoard 0).units : ℚ) / 2⌋ := by norm_num [wBoard]
  exact ⟨by decide, hq,
    ((c3_transfer_asymmetric_conservative wBoard 0 1 (by decide) (by decide)
      (by decide) (by decide) (by decide)).2.1 hq).2.2.2.2⟩

/-- Witness for C4 at a concrete input. -/
theorem c4_endPlayerTurn_matches_spec_witness :
    NonnegB wGame.territories ∧
    endPlayerTurn wGame "" wRs = endPlayerTurnSpec wGame "" wRs :=
  ⟨by decide, c4_endPlayerTurn_matches_spec wGame "" wRs (by decide)⟩

/-- Witness for C5 at a concrete input (the silent-no-op case). -/
theorem c5_selection_transition_witness :
    noSelectionGame.gameState.currentTurn = Owner.player ∧
    noSelectionGame.gameState.gameOver = false ∧
    handleTerritoryClick noSelectionGame 1 0 0 = (noSelectionGame, []) :=
  ⟨rfl, rfl,
    (c5_selection_transition noSelectionGame 1 0 0 rfl rfl).2.1 rfl (by decide)⟩

/-- The concrete attack action used by the C7 witness. -/
def wAttackAct : AIAction :=
  { kind := ActKind.attack, source := 0, target := 1, confidence := 0 }

/-- Witness for C7 at a concrete input. -/
theorem c7_no_attack_from_weak_source_witness :
    ((0, wAttackAct) : ℕ × AIAction).2.kind = ActKind.attack ∧
    (getT wWeakBoard 0).units ≤ 1 ∧
    aiStep wRs wWeakBoard (0, wAttackAct) = wWeakBoard :=
  ⟨rfl, by decide,
    c7_no_attack_from_weak_source wRs wWeakBoard (0, wAttackAct)
      rfl (by decide)⟩

/-- Witness for C8 at a concrete input. -/
theorem c8_top3_stable_sorted_witness :
    ¬ ((List.range wBoard.length).filter
        (fun k => decide ((getT wBoard k).owner = Owner.ai))).isEmpty = true ∧
    executeTurn wBoard "" wRs =
      ((executedActions wBoard "").enum).foldl (aiStep wRs) wBoard :=
  ⟨by decide, (c8_top3_stable_sorted wBoard "" wRs).2.2.2.2.2 (by decide)⟩

/-- Witness for C9 at a concrete input (the human-transfer conjunct). -/
theorem c9_units_nonneg_witness :
    NonnegB wBoard ∧ NonnegB (transferUnits wBoard 0 1).1 :=
  ⟨by decide, c9_units_nonneg.2.2.2.1 wBoard 0 1 (by decide)⟩

/-- Witness for C10 at a concrete input. -/
theorem c10_attack_leaves_units_positive_witness :
    2 ≤ (getT wBoard 0).units ∧ 0 ≤ (getT wBoard 1).units ∧
    1 ≤ (getT (attackTerritory wBoard 0 1 0 0).1 0).units ∧
    1 ≤ (getT (attackTerritory wBoard 0 1 0 0).1 1).units := by
  have h := c10_attack_leaves_units_positive wBoard 0 1 0 0 (by decide)
    (by decide) (by decide) (by decide) (by decide) (le_refl 0) (by norm_num)
    (le_refl 0) (by norm_num)
  exact ⟨by decide, by decide, h.1.1, h.1.2⟩

end Teritory
